import Mathlib

/-!
# Shallow embedding of the `.puz` crossword header parser

This file embeds `src/formats/puz/src/lib.rs` (crossword-formats-rust).
Byte buffers are modelled as `List Nat` (each entry a byte value), u16
values as `Nat` (always built as `lo + 256 * hi` from two bytes, hence
< 2^16 whenever the input entries are bytes).  Rust's `Result` is
modelled by `Except`, and the `std::io::Error` payload of the
`Malformed` variant is dropped (no claim inspects it).
-/

namespace Puz

/-- Embeds `enum ParsePuzError` (lib.rs lines 5-19).  The `Malformed`
variant wraps an `std::io::Error` in Rust; the payload is not modelled. -/
inductive ParsePuzError where
  | NotAPuz : ParsePuzError
  | UnexpectedVersionFormat : Nat → Nat → Nat → Nat → ParsePuzError
  | UnknownPuzzleType : Nat → ParsePuzError
  | UnknownSolutionType : Nat → ParsePuzError
  | Malformed : ParsePuzError
deriving DecidableEq, Repr

/-- Embeds `enum PuzzleType` (lib.rs lines 21-25). -/
inductive PuzzleType where
  | Normal : PuzzleType
  | Diagramless : PuzzleType
deriving DecidableEq, Repr

/-- Embeds `impl TryFrom<u16> for PuzzleType` (lib.rs lines 26-35):
exact match on the raw 16-bit code. -/
def PuzzleType.tryFrom (value : Nat) : Except ParsePuzError PuzzleType :=
  if value = 0x0001 then .ok .Normal
  else if value = 0x0401 then .ok .Diagramless
  else .error (.UnknownPuzzleType value)

/-- Embeds `enum SolutionType` (lib.rs lines 37-42). -/
inductive SolutionType where
  | Normal : SolutionType
  | Scrambled : SolutionType
  | Missing : SolutionType
deriving DecidableEq, Repr

/-- Embeds `impl TryFrom<u16> for SolutionType` (lib.rs lines 43-53):
exact match on the raw 16-bit code. -/
def SolutionType.tryFrom (value : Nat) : Except ParsePuzError SolutionType :=
  if value = 0x0000 then .ok .Normal
  else if value = 0x0002 then .ok .Missing
  else if value = 0x0004 then .ok .Scrambled
  else .error (.UnknownSolutionType value)

/-- Embeds `struct Crc16Checksum(u16)` (lib.rs line 56): a newtype
around a 16-bit value. -/
structure Crc16Checksum where
  val : Nat
deriving DecidableEq, Repr

/-- Embeds `impl From<u16> for Crc16Checksum` (lib.rs lines 58-62). -/
def Crc16Checksum.fromU16 (value : Nat) : Crc16Checksum := ⟨value⟩

/-- Embeds `struct PuzVersion` (lib.rs lines 64-73).  Rust's
`extension : Option<char>` holds a `char` built from a byte by an
`as` cast, so it is modelled by the byte's value. -/
structure PuzVersion where
  major : Nat
  minor : Nat
  extension : Option Nat
deriving DecidableEq, Repr

/-- Embeds `u8::is_ascii_digit`: the byte lies in `b'0' ..= b'9'`
(48 to 57). -/
def is_ascii_digit (b : Nat) : Bool :=
  decide (48 ≤ b ∧ b ≤ 57)

/-- Embeds `impl TryFrom<[u8; 4]> for PuzVersion` (lib.rs lines 74-90):
the window must be digit, `.` (byte 46), digit; the fourth byte is an
optional extension (absent when 0).  On failure all four raw bytes are
carried in the error. -/
def PuzVersion.tryFrom (major dot minor ext : Nat) :
    Except ParsePuzError PuzVersion :=
  if is_ascii_digit major && dot == 46 && is_ascii_digit minor then
    .ok { major := major - 48
          minor := minor - 48
          extension := if ext = 0 then none else some ext }
  else
    .error (.UnexpectedVersionFormat major dot minor ext)

/-- Embeds `struct PuzGarbage` (lib.rs lines 92-107). -/
structure PuzGarbage where
  preamble : Option (List Nat)
  unknown_header_data_1 : List Nat
  unknown_header_data_2 : List Nat
deriving DecidableEq, Repr

/-- Embeds `struct PuzFile` (lib.rs lines 109-141). -/
structure PuzFile where
  garbage : PuzGarbage
  checksum : Crc16Checksum
  checksum_board_configuration : Crc16Checksum
  masked_checksums : List Nat
  version : PuzVersion
  checksum_scrambled : Option Crc16Checksum
  width : Nat
  height : Nat
  clue_count : Nat
  puzzle_type : PuzzleType
  solution_type : SolutionType
deriving DecidableEq, Repr

/-- Embeds `FILE_MAGIC` (lib.rs line 144): the 12 bytes of the
NUL-terminated string `"ACROSS&DOWN\0"`. -/
def FILE_MAGIC : List Nat :=
  [65, 67, 82, 79, 83, 83, 38, 68, 79, 87, 78, 0]

/-- Embeds Rust's `slice.get(lo..hi)`: `some` of the sub-slice when
`lo ≤ hi ∧ hi ≤ len`, otherwise `none`. -/
def sliceGet (b : List Nat) (lo hi : Nat) : Option (List Nat) :=
  if lo ≤ hi ∧ hi ≤ b.length then some ((b.drop lo).take (hi - lo))
  else none

/-- Embeds the `for i in 0_usize..` loop body of `get_puz_start_offset`
(lib.rs lines 147-155), fuel-indexed: `none` means the loop did not
return within `fuel` iterations.  Each iteration fetches the window
`(i+2)..(i+14)` (propagating `NotAPuz` when it runs off the end) and
returns `i` when the window equals `FILE_MAGIC`. -/
def puzStartLoop (b : List Nat) : Nat → Nat → Option (Except ParsePuzError Nat)
  | 0, _ => none
  | fuel + 1, i =>
    match sliceGet b (i + 2) (i + 14) with
    | none => some (.error .NotAPuz)
    | some w =>
      if w = FILE_MAGIC then some (.ok i)
      else puzStartLoop b fuel (i + 1)

/-- Embeds `get_puz_start_offset` (lib.rs lines 146-158).  The Rust
loop is unbounded; `b.length + 1` iterations always suffice
(`puzStartLoop_isSome` below), so the fallback arm — the Rust
`unreachable!()` on line 157 — is never taken. -/
def get_puz_start_offset (b : List Nat) : Except ParsePuzError Nat :=
  match puzStartLoop b (b.length + 1) 0 with
  | some r => r
  | none => .error .NotAPuz

/-- The magic marker matches at scan index `i`: the window
`(i+2)..(i+14)` of `b` exists and equals `FILE_MAGIC`. -/
def magicAt (b : List Nat) (i : Nat) : Prop :=
  sliceGet b (i + 2) (i + 14) = some FILE_MAGIC

instance (b : List Nat) (i : Nat) : Decidable (magicAt b i) := by
  unfold magicAt
  infer_instance

/-- Embeds `reader.read_u16::<LittleEndian>()` on a cursor at `pos`
over `sub`: two bytes little-endian, advancing the position; fails
(Rust: `UnexpectedEof`, surfaced as `Malformed` via `#[from]`) when
fewer than 2 bytes remain. -/
def readU16 (sub : List Nat) (pos : Nat) : Except ParsePuzError (Nat × Nat) :=
  if pos + 2 ≤ sub.length then
    .ok (sub.getD pos 0 + 256 * sub.getD (pos + 1) 0, pos + 2)
  else .error .Malformed

/-- Embeds `reader.read_u8()` on a cursor at `pos` over `sub`. -/
def readU8 (sub : List Nat) (pos : Nat) : Except ParsePuzError (Nat × Nat) :=
  if pos + 1 ≤ sub.length then .ok (sub.getD pos 0, pos + 1)
  else .error .Malformed

/-- Embeds `reader.read_exact(&mut buf)` for an `n`-byte array on a
cursor at `pos` over `sub`: yields the `n` bytes and the advanced
position, failing when fewer than `n` bytes remain. -/
def readArr (sub : List Nat) (pos n : Nat) :
    Except ParsePuzError (List Nat × Nat) :=
  if pos + n ≤ sub.length then .ok ((sub.drop pos).take n, pos + n)
  else .error .Malformed

/-- Embeds `read_exact` into a `[u8; 4]` followed by the array
destructuring of `TryFrom<[u8; 4]>`: the four bytes individually. -/
def readBytes4 (sub : List Nat) (pos : Nat) :
    Except ParsePuzError ((Nat × Nat × Nat × Nat) × Nat) :=
  if pos + 4 ≤ sub.length then
    .ok ((sub.getD pos 0, sub.getD (pos + 1) 0,
          sub.getD (pos + 2) 0, sub.getD (pos + 3) 0), pos + 4)
  else .error .Malformed

/-- Embeds the body of `parse_a_puz` (lib.rs lines 160-224), also
returning the final cursor position (the value of `reader.position()`
at line 205, where the Rust code binds — but does not return — the
slice `&puz_bytes[(reader.position() as usize)..]`).  The cursor reads
run over `puz_bytes[start_offset..]`; `seek(SeekFrom::Current(12))`
never fails on a `Cursor`, so it is plain position arithmetic. -/
def parse_core (puz_bytes : List Nat) :
    Except ParsePuzError (PuzFile × Nat) := do
  let start_offset ← get_puz_start_offset puz_bytes
  let preamble : Option (List Nat) :=
    if start_offset > 0 then some (puz_bytes.take start_offset) else none
  let sub := puz_bytes.drop start_offset
  let (checksum, pos) ← readU16 sub 0
  let pos := pos + 12
  let (checksum_board_configuration, pos) ← readU16 sub pos
  let (masked_checksums, pos) ← readArr sub pos 8
  let ((v0, v1, v2, v3), pos) ← readBytes4 sub pos
  let version ← PuzVersion.tryFrom v0 v1 v2 v3
  let (unknown_header_data_1, pos) ← readArr sub pos 2
  let (checksum_scrambled_raw, pos) ← readU16 sub pos
  let checksum_scrambled : Option Crc16Checksum :=
    if checksum_scrambled_raw = 0 then none
    else some (Crc16Checksum.fromU16 checksum_scrambled_raw)
  let (unknown_header_data_2, pos) ← readArr sub pos 12
  let (width, pos) ← readU8 sub pos
  let (height, pos) ← readU8 sub pos
  let (clue_count, pos) ← readU16 sub pos
  let (puzzle_type_raw, pos) ← readU16 sub pos
  let puzzle_type ← PuzzleType.tryFrom puzzle_type_raw
  let (solution_type_raw, pos) ← readU16 sub pos
  let solution_type ← SolutionType.tryFrom solution_type_raw
  return ({ garbage :=
              { preamble
                unknown_header_data_1
                unknown_header_data_2 }
            checksum := Crc16Checksum.fromU16 checksum
            checksum_board_configuration :=
              Crc16Checksum.fromU16 checksum_board_configuration
            masked_checksums
            version
            checksum_scrambled
            width
            height
            clue_count
            puzzle_type
            solution_type }, pos)

/-- Embeds `parse_a_puz` (lib.rs lines 160-224) as it is declared:
it returns only the `PuzFile` — the `rest` slice bound on line 205
is not part of the Rust function's return value. -/
def parse_a_puz (puz_bytes : List Nat) : Except ParsePuzError PuzFile :=
  (parse_core puz_bytes).map Prod.fst

/-- The slice bound to `rest` on lib.rs line 205:
`&puz_bytes[(reader.position() as usize)..]`.  Note the Rust code
indexes the FULL buffer with a position that is relative to
`puz_bytes[start_offset..]`, and then discards the binding. -/
def parse_rest (puz_bytes : List Nat) : Except ParsePuzError (List Nat) :=
  (parse_core puz_bytes).map (fun r => puz_bytes.drop r.2)

/-- The final cursor position of a successful parse — the index at
which the line-205 `rest` slice begins in the full buffer. -/
def parse_rest_start (puz_bytes : List Nat) : Except ParsePuzError Nat :=
  (parse_core puz_bytes).map Prod.snd

/-! ### Concrete buffers used as witnesses and counterexamples -/

/-- A well-formed 72-byte buffer: magic window check at offset 0 (the
magic string itself at offset 2), version bytes `"1.3\0"`, scrambled
checksum raw `0`, width 15, height 15, clue count 142, puzzle type
`0x0001`, solution type `0x0000`, followed by a 20-byte body of 7s. -/
def buf2 : List Nat :=
  [0, 0] ++ FILE_MAGIC ++ [0, 0] ++ List.replicate 8 0 ++
  [49, 46, 51, 0] ++ [0, 0] ++ [0, 0] ++ List.replicate 12 0 ++
  [15, 15] ++ [142, 0] ++ [1, 0] ++ [0, 0] ++ List.replicate 20 7

/-- `buf2` prefixed by 7 bytes of preamble garbage. -/
def buf7 : List Nat := [9, 9, 9, 9, 9, 9, 9] ++ buf2

/-- A well-formed 56-byte buffer whose scrambled-checksum raw field is
`0x1234` (bytes `[0x34, 0x12]` little-endian at offsets 30-31), with
version extension byte `99`, puzzle type `0x0401`, solution type
`0x0002`. -/
def buf8 : List Nat :=
  [0, 0] ++ FILE_MAGIC ++ [0, 0] ++ List.replicate 8 0 ++
  [49, 46, 51, 99] ++ [0, 0] ++ [52, 18] ++ List.replicate 12 0 ++
  [15, 15] ++ [142, 0] ++ [1, 4] ++ [2, 0] ++ List.replicate 4 7

/-- A 20-byte buffer that contains the magic marker (window check at
offset 0) but is far shorter than the 52-byte header. -/
def cex5 : List Nat := [0, 0] ++ FILE_MAGIC ++ List.replicate 6 0

/-! ### Helper lemmas about the magic scan -/

theorem magicAt_iff (b : List Nat) (i : Nat) :
    magicAt b i ↔ i + 14 ≤ b.length ∧ (b.drop (i + 2)).take 12 = FILE_MAGIC := by
  unfold magicAt sliceGet
  constructor
  · intro h
    by_cases hle : i + 2 ≤ i + 14 ∧ i + 14 ≤ b.length
    · rw [if_pos hle] at h
      refine ⟨hle.2, ?_⟩
      have h12 : i + 14 - (i + 2) = 12 := by omega
      rw [h12] at h
      exact Option.some.inj h
    · rw [if_neg hle] at h
      exact absurd h (by simp)
  · rintro ⟨hlen, htake⟩
    rw [if_pos ⟨by omega, hlen⟩]
    have h12 : i + 14 - (i + 2) = 12 := by omega
    rw [h12, htake]

theorem magicAt_length {b : List Nat} {i : Nat} (h : magicAt b i) :
    i + 14 ≤ b.length :=
  ((magicAt_iff b i).1 h).1

theorem puzStartLoop_succ_none {b : List Nat} {i : Nat} (fuel : Nat)
    (hs : sliceGet b (i + 2) (i + 14) = none) :
    puzStartLoop b (fuel + 1) i = some (.error .NotAPuz) := by
  unfold puzStartLoop
  rw [hs]

theorem puzStartLoop_succ_some {b : List Nat} {i : Nat} {w : List Nat}
    (fuel : Nat) (hs : sliceGet b (i + 2) (i + 14) = some w) :
    puzStartLoop b (fuel + 1) i =
      if w = FILE_MAGIC then some (.ok i) else puzStartLoop b fuel (i + 1) := by
  conv_lhs => unfold puzStartLoop
  rw [hs]

theorem sliceGet_some_of_le {b : List Nat} {i : Nat} (h : i + 14 ≤ b.length) :
    sliceGet b (i + 2) (i + 14) = some ((b.drop (i + 2)).take 12) := by
  unfold sliceGet
  rw [if_pos ⟨by omega, h⟩]
  have h12 : i + 14 - (i + 2) = 12 := by omega
  rw [h12]

theorem puzStartLoop_isSome (b : List Nat) :
    ∀ fuel i, 1 ≤ fuel → b.length ≤ fuel + i + 12 →
      (puzStartLoop b fuel i).isSome = true := by
  intro fuel
  induction fuel with
  | zero => intro i h1 _; omega
  | succ fuel ih =>
    intro i _ hlen
    rcases hs : sliceGet b (i + 2) (i + 14) with _ | w
    · rw [puzStartLoop_succ_none fuel hs]; rfl
    · rw [puzStartLoop_succ_some fuel hs]
      by_cases hw : w = FILE_MAGIC
      · rw [if_pos hw]; rfl
      · rw [if_neg hw]
        rcases Nat.eq_zero_or_pos fuel with hf | hf
        · exfalso
          subst hf
          unfold sliceGet at hs
          have hc : ¬ (i + 2 ≤ i + 14 ∧ i + 14 ≤ b.length) := by omega
          rw [if_neg hc] at hs
          exact absurd hs (by simp)
        · exact ih (i + 1) hf (by omega)

theorem puzStartLoop_ok_magic (b : List Nat) :
    ∀ fuel j i, puzStartLoop b fuel j = some (.ok i) → magicAt b i := by
  intro fuel
  induction fuel with
  | zero => intro j i h; exact absurd h (by simp [puzStartLoop])
  | succ fuel ih =>
    intro j i h
    rcases hs : sliceGet b (j + 2) (j + 14) with _ | w
    · rw [puzStartLoop_succ_none fuel hs] at h
      exact absurd (Option.some.inj h) (by simp)
    · rw [puzStartLoop_succ_some fuel hs] at h
      by_cases hw : w = FILE_MAGIC
      · rw [if_pos hw] at h
        have hji : j = i := Except.ok.inj (Option.some.inj h)
        subst hji
        subst hw
        exact hs
      · rw [if_neg hw] at h
        exact ih (j + 1) i h

theorem puzStartLoop_finds (b : List Nat) (i : Nat) (hm : magicAt b i) :
    ∀ fuel j, j ≤ i → (∀ k, j ≤ k → k < i → ¬ magicAt b k) →
      i < fuel + j → puzStartLoop b fuel j = some (.ok i) := by
  have hlen := magicAt_length hm
  intro fuel
  induction fuel with
  | zero => intro j hj _ hfuel; omega
  | succ fuel ih =>
    intro j hj hleast hfuel
    have hslice : sliceGet b (j + 2) (j + 14) =
        some ((b.drop (j + 2)).take 12) := sliceGet_some_of_le (by omega)
    rw [puzStartLoop_succ_some fuel hslice]
    by_cases hji : j = i
    · subst hji
      have htake : (b.drop (j + 2)).take 12 = FILE_MAGIC :=
        ((magicAt_iff b j).1 hm).2
      rw [if_pos htake]
    · have hjlt : j < i := Nat.lt_of_le_of_ne hj hji
      have hnot : ¬ magicAt b j := hleast j le_rfl hjlt
      have hne : (b.drop (j + 2)).take 12 ≠ FILE_MAGIC := by
        intro heq
        exact hnot ((magicAt_iff b j).2 ⟨by omega, heq⟩)
      rw [if_neg hne]
      exact ih (j + 1) hjlt (fun k hk1 hk2 => hleast k (by omega) hk2) (by omega)

theorem puzStartLoop_no_magic (b : List Nat) (hno : ∀ k, ¬ magicAt b k) :
    ∀ fuel j, puzStartLoop b fuel j = none ∨
      puzStartLoop b fuel j = some (.error .NotAPuz) := by
  intro fuel
  induction fuel with
  | zero => intro j; left; rfl
  | succ fuel ih =>
    intro j
    rcases hs : sliceGet b (j + 2) (j + 14) with _ | w
    · right; rw [puzStartLoop_succ_none fuel hs]
    · by_cases hw : w = FILE_MAGIC
      · exfalso
        apply hno j
        unfold magicAt
        rw [← hw]
        exact hs
      · rw [puzStartLoop_succ_some fuel hs, if_neg hw]
        exact ih (j + 1)

theorem get_puz_start_offset_ok_magic {b : List Nat} {i : Nat}
    (h : get_puz_start_offset b = .ok i) : magicAt b i := by
  unfold get_puz_start_offset at h
  rcases hloop : puzStartLoop b (b.length + 1) 0 with _ | r
  · rw [hloop] at h
    exact absurd h (by simp)
  · rw [hloop] at h
    subst h
    exact puzStartLoop_ok_magic b (b.length + 1) 0 i hloop

/-! ### Helper lemmas about the header field reads -/

theorem except_bind_ok {ε α β : Type} (x : Except ε α) (g : α → Except ε β)
    (v : β) : (x >>= g) = .ok v ↔ ∃ a, x = .ok a ∧ g a = .ok v := by
  cases x <;> simp [Bind.bind, Except.bind]

theorem except_error_bind {ε α β : Type} (e : ε) (g : α → Except ε β) :
    (Except.error e >>= g) = .error e := rfl

theorem readU16_ok {sub : List Nat} {pos v p : Nat}
    (h : readU16 sub pos = .ok (v, p)) :
    pos + 2 ≤ sub.length ∧
    v = sub.getD pos 0 + 256 * sub.getD (pos + 1) 0 ∧ p = pos + 2 := by
  unfold readU16 at h
  split at h
  · simp only [Except.ok.injEq, Prod.mk.injEq] at h
    exact ⟨by assumption, h.1.symm, h.2.symm⟩
  · exact absurd h (by simp)

theorem readU8_ok {sub : List Nat} {pos v p : Nat}
    (h : readU8 sub pos = .ok (v, p)) :
    pos + 1 ≤ sub.length ∧ v = sub.getD pos 0 ∧ p = pos + 1 := by
  unfold readU8 at h
  split at h
  · simp only [Except.ok.injEq, Prod.mk.injEq] at h
    exact ⟨by assumption, h.1.symm, h.2.symm⟩
  · exact absurd h (by simp)

theorem readArr_ok {sub : List Nat} {pos n : Nat} {w : List Nat} {p : Nat}
    (h : readArr sub pos n = .ok (w, p)) :
    pos + n ≤ sub.length ∧ w = (sub.drop pos).take n ∧ p = pos + n := by
  unfold readArr at h
  split at h
  · simp only [Except.ok.injEq, Prod.mk.injEq] at h
    exact ⟨by assumption, h.1.symm, h.2.symm⟩
  · exact absurd h (by simp)

theorem readBytes4_ok {sub : List Nat} {pos v0 v1 v2 v3 p : Nat}
    (h : readBytes4 sub pos = .ok ((v0, v1, v2, v3), p)) :
    pos + 4 ≤ sub.length ∧
    v0 = sub.getD pos 0 ∧ v1 = sub.getD (pos + 1) 0 ∧
    v2 = sub.getD (pos + 2) 0 ∧ v3 = sub.getD (pos + 3) 0 ∧ p = pos + 4 := by
  unfold readBytes4 at h
  split at h
  · simp only [Except.ok.injEq, Prod.mk.injEq] at h
    refine ⟨by assumption, ?_, ?_, ?_, ?_, ?_⟩ <;> simp_all
  · exact absurd h (by simp)

/-- Inversion of a successful `parse_core` run: the final cursor
position is 52, at least 52 bytes were available past the discovered
offset, and the `preamble` and `checksum_scrambled` fields are as the
byte layout dictates. -/
theorem parse_core_ok_inv (b : List Nat) (i : Nat) (f : PuzFile) (p : Nat)
    (hi : get_puz_start_offset b = .ok i) (hp : parse_core b = .ok (f, p)) :
    p = 52 ∧ i + 52 ≤ b.length ∧
    f.garbage.preamble = (if 0 < i then some (b.take i) else none) ∧
    f.checksum_scrambled =
      (if (b.drop i).getD 30 0 + 256 * (b.drop i).getD 31 0 = 0 then none
       else some (Crc16Checksum.fromU16
         ((b.drop i).getD 30 0 + 256 * (b.drop i).getD 31 0))) := by
  have hm := get_puz_start_offset_ok_magic hi
  have hlen14 := magicAt_length hm
  unfold parse_core at hp
  rw [hi] at hp
  simp only [except_bind_ok, Prod.exists, Except.ok.injEq, exists_eq_left] at hp
  obtain ⟨a, rfl, c1, p1, h1, c2, p2, h2, mc, p3, h3, v0, v1, v2, ve, p4, h4,
    ver, hver, u1, p5, h5, sr, p6, h6, u2, p7, h7, wd, p8, h8, ht, p9, h9,
    cc, p10, h10, ptr, p11, h11, ptv, hpt, str, p12, h12, stv, hst, hfin⟩ := hp
  obtain ⟨l1, -, rfl⟩ := readU16_ok h1
  obtain ⟨l2, -, rfl⟩ := readU16_ok h2
  obtain ⟨l3, -, rfl⟩ := readArr_ok h3
  obtain ⟨l4, -, -, -, -, rfl⟩ := readBytes4_ok h4
  obtain ⟨l5, -, rfl⟩ := readArr_ok h5
  obtain ⟨l6, hsr, rfl⟩ := readU16_ok h6
  obtain ⟨l7, -, rfl⟩ := readArr_ok h7
  obtain ⟨l8, -, rfl⟩ := readU8_ok h8
  obtain ⟨l9, -, rfl⟩ := readU8_ok h9
  obtain ⟨l10, -, rfl⟩ := readU16_ok h10
  obtain ⟨l11, -, rfl⟩ := readU16_ok h11
  obtain ⟨l12, -, rfl⟩ := readU16_ok h12
  simp only [pure, Except.pure, Except.ok.injEq, Prod.mk.injEq] at hfin
  obtain ⟨hf, hpp⟩ := hfin
  subst hf
  rw [List.length_drop] at l12
  refine ⟨by omega, by omega, rfl, ?_⟩
  rw [hsr]

/-- A successful `parse_core` run implies the offset scan succeeded. -/
theorem parse_core_ok_start {b : List Nat} {f : PuzFile} {p : Nat}
    (hp : parse_core b = .ok (f, p)) :
    ∃ i, get_puz_start_offset b = .ok i := by
  unfold parse_core at hp
  rcases hg : get_puz_start_offset b with e | i
  · rw [hg, except_error_bind] at hp
    exact absurd hp (by simp)
  · exact ⟨i, rfl⟩

/-- A successful `parse_a_puz` run comes from a successful
`parse_core` run with some final position. -/
theorem parse_a_puz_ok_core {b : List Nat} {f : PuzFile}
    (h : parse_a_puz b = .ok f) : ∃ p, parse_core b = .ok (f, p) := by
  unfold parse_a_puz at h
  rcases hc : parse_core b with e | pr
  · rw [hc] at h
    exact absurd h (by simp [Except.map])
  · rw [hc] at h
    rcases pr with ⟨f', p⟩
    simp only [Except.map, Except.ok.injEq] at h
    subst h
    exact ⟨p, rfl⟩

/-! ### Claim theorems -/

/-- C1: for every byte buffer `b`, if the 12-byte window of `b`
starting at `i + 2` equals the magic string `"ACROSS&DOWN\0"` for some
`i`, then `get_puz_start_offset` returns `Ok i` for the smallest
such `i`. -/
theorem offset_locator_finds_least_magic (b : List Nat) (i : Nat)
    (hm : magicAt b i) (hleast : ∀ j < i, ¬ magicAt b j) :
    get_puz_start_offset b = .ok i := by
  have hlen := magicAt_length hm
  have hloop := puzStartLoop_finds b i hm (b.length + 1) 0 (Nat.zero_le i)
    (fun k _ hk => hleast k hk) (by omega)
  unfold get_puz_start_offset
  rw [hloop]

theorem offset_locator_finds_least_magic_witness :
    magicAt buf7 7 ∧ (∀ j < 7, ¬ magicAt buf7 j) ∧
      get_puz_start_offset buf7 = .ok 7 :=
  ⟨by decide, by decide,
    offset_locator_finds_least_magic buf7 7 (by decide) (by decide)⟩

/-- C2 (amended): on every successful parse the internally computed
remainder slice — the value `rest` that the Rust code binds on line
205 and then discards instead of returning — begins at byte offset 52
of the input buffer, because the cursor position (relative to the
sub-buffer at the discovered offset) is 52 and is used to index the
full buffer. -/
theorem rest_slice_begins_at_52 (b : List Nat) (r : List Nat)
    (h : parse_rest b = .ok r) : r = b.drop 52 := by
  unfold parse_rest at h
  rcases hc : parse_core b with e | pr
  · rw [hc] at h
    exact absurd h (by simp [Except.map])
  · rcases pr with ⟨f, p⟩
    rw [hc] at h
    simp only [Except.map, Except.ok.injEq] at h
    obtain ⟨i, hi⟩ := parse_core_ok_start hc
    obtain ⟨h52, -, -, -⟩ := parse_core_ok_inv b i f p hi hc
    rw [← h, h52]

theorem rest_slice_begins_at_52_witness :
    ∃ r, parse_rest buf2 = .ok r ∧ r = buf2.drop 52 :=
  ⟨_, rfl, rest_slice_begins_at_52 buf2 _ rfl⟩

/-- C2 (counterexample to the claim as stated): `buf2` has its magic
window check beginning at offset 2 (discovered offset 0) followed by a
well-formed header, yet the remainder slice computed on line 205
begins at byte offset 52 of the input buffer, not at 2 + 14 + 52 = 68. -/
theorem rest_offset_counterexample :
    get_puz_start_offset buf2 = .ok 0 ∧
      parse_rest buf2 = .ok (buf2.drop 52) ∧
      buf2.drop 52 ≠ buf2.drop 68 :=
  ⟨rfl, rfl, by decide⟩

/-- C3: for every 4-byte window `[d1, '.', d2, e]` where `d1` and `d2`
are ASCII digits, the version validator succeeds with
`major = d1 - '0'`, `minor = d2 - '0'`, and `extension = none` iff
`e = 0`, else `some e`. -/
theorem version_accepts_digit_dot_digit (d1 d2 e : Nat)
    (h1 : is_ascii_digit d1 = true) (h2 : is_ascii_digit d2 = true) :
    PuzVersion.tryFrom d1 46 d2 e =
      .ok { major := d1 - 48, minor := d2 - 48,
            extension := if e = 0 then none else some e } := by
  unfold PuzVersion.tryFrom
  rw [if_pos]
  simp [h1, h2]

theorem version_accepts_digit_dot_digit_witness :
    is_ascii_digit 49 = true ∧ is_ascii_digit 51 = true ∧
      PuzVersion.tryFrom 49 46 51 99 =
        .ok { major := 49 - 48, minor := 51 - 48,
              extension := if (99 : Nat) = 0 then none else some 99 } :=
  ⟨by decide, by decide,
    version_accepts_digit_dot_digit 49 51 99 (by decide) (by decide)⟩

/-- C4: the puzzle-type validator maps exactly `0x0001 ↦ Normal` and
`0x0401 ↦ Diagramless` and otherwise fails with
`UnknownPuzzleType c`; the solution-type validator maps exactly
`0x0000 ↦ Normal`, `0x0002 ↦ Missing`, `0x0004 ↦ Scrambled` and
otherwise fails with `UnknownSolutionType c`; each error carries the
unrecognized code unchanged. -/
theorem type_code_lookup_exact (c : Nat) :
    (PuzzleType.tryFrom c = .ok .Normal ↔ c = 0x0001) ∧
    (PuzzleType.tryFrom c = .ok .Diagramless ↔ c = 0x0401) ∧
    (∀ e, PuzzleType.tryFrom c = .error e ↔
      c ≠ 0x0001 ∧ c ≠ 0x0401 ∧ e = .UnknownPuzzleType c) ∧
    (SolutionType.tryFrom c = .ok .Normal ↔ c = 0x0000) ∧
    (SolutionType.tryFrom c = .ok .Missing ↔ c = 0x0002) ∧
    (SolutionType.tryFrom c = .ok .Scrambled ↔ c = 0x0004) ∧
    (∀ e, SolutionType.tryFrom c = .error e ↔
      c ≠ 0x0000 ∧ c ≠ 0x0002 ∧ c ≠ 0x0004 ∧ e = .UnknownSolutionType c) := by
  unfold PuzzleType.tryFrom SolutionType.tryFrom
  by_cases h1 : c = 0x0001 <;> by_cases h4 : c = 0x0401 <;>
    by_cases h0 : c = 0x0000 <;> by_cases h2 : c = 0x0002 <;>
    by_cases hs : c = 0x0004 <;> simp_all [eq_comm]

/-- C5 (amended): every buffer in which the magic marker never matches
— in particular every buffer shorter than the 14-byte magic window,
hence truncated and empty buffers — fails with `NotAPuz`.  This does
not extend to every buffer shorter than the 52-byte minimum header:
one that contains the magic marker can fail with a different error, as
the counterexample below does (`Malformed`). -/
theorem no_magic_fails_not_a_puz (b : List Nat)
    (h : ∀ i < b.length, ¬ magicAt b i) :
    parse_a_puz b = .error .NotAPuz := by
  have hno : ∀ k, ¬ magicAt b k := by
    intro k hk
    have hlen := magicAt_length hk
    exact h k (by omega) hk
  have hsome := puzStartLoop_isSome b (b.length + 1) 0 (by omega) (by omega)
  rcases puzStartLoop_no_magic b hno (b.length + 1) 0 with hnone | herr
  · rw [hnone] at hsome
    exact absurd hsome (by simp)
  · have hget : get_puz_start_offset b = .error .NotAPuz := by
      unfold get_puz_start_offset
      rw [herr]
    unfold parse_a_puz parse_core
    rw [hget, except_error_bind]
    rfl

theorem no_magic_fails_not_a_puz_witness :
    (∀ i < ([1, 2, 3] : List Nat).length, ¬ magicAt [1, 2, 3] i) ∧
      parse_a_puz [1, 2, 3] = .error .NotAPuz :=
  ⟨by decide, no_magic_fails_not_a_puz [1, 2, 3] (by decide)⟩

/-- C5 (counterexample to the claim as stated): `cex5` is 20 bytes
long — far shorter than the 52-byte minimum header — yet because it
contains the magic marker, `parse_a_puz` fails with `Malformed`
(a short read), not with `NotAPuz`. -/
theorem short_magic_buffer_fails_malformed :
    cex5.length < 52 ∧ parse_a_puz cex5 = .error .Malformed ∧
      ParsePuzError.Malformed ≠ ParsePuzError.NotAPuz :=
  ⟨by decide, rfl, by decide⟩

/-- C6: every 4-byte window that does not match the
digit-dot-digit pattern makes the version validator fail with
`UnexpectedVersionFormat` carrying all four raw bytes unchanged. -/
theorem version_rejects_malformed_window (b0 b1 b2 b3 : Nat)
    (h : (is_ascii_digit b0 && b1 == 46 && is_ascii_digit b2) = false) :
    PuzVersion.tryFrom b0 b1 b2 b3 =
      .error (.UnexpectedVersionFormat b0 b1 b2 b3) := by
  unfold PuzVersion.tryFrom
  rw [if_neg]
  simp [h]

theorem version_rejects_malformed_window_witness :
    (is_ascii_digit 65 && (46 : Nat) == 46 && is_ascii_digit 51) = false ∧
      PuzVersion.tryFrom 65 46 51 0 =
        .error (.UnexpectedVersionFormat 65 46 51 0) :=
  ⟨by decide, version_rejects_malformed_window 65 46 51 0 (by decide)⟩

/-- C7: on every successful parse the preamble is `none` iff the
discovered magic offset is 0, and for a nonzero offset `i` it is
`some` of exactly the first `i` bytes of the input buffer. -/
theorem preamble_iff_nonzero_offset (b : List Nat) (i : Nat) (f : PuzFile)
    (hi : get_puz_start_offset b = .ok i) (hp : parse_a_puz b = .ok f) :
    (f.garbage.preamble = none ↔ i = 0) ∧
    (i ≠ 0 → f.garbage.preamble = some (b.take i)) := by
  obtain ⟨p, hcore⟩ := parse_a_puz_ok_core hp
  obtain ⟨-, -, hpre, -⟩ := parse_core_ok_inv b i f p hi hcore
  constructor
  · rw [hpre]
    by_cases h0 : 0 < i
    · rw [if_pos h0]
      simp
      omega
    · rw [if_neg h0]
      simp
      omega
  · intro hne
    rw [hpre, if_pos (by omega)]

theorem preamble_iff_nonzero_offset_witness :
    ∃ f, parse_a_puz buf7 = .ok f ∧
      ((f.garbage.preamble = none ↔ 7 = 0) ∧
        (7 ≠ 0 → f.garbage.preamble = some (buf7.take 7))) :=
  ⟨_, rfl, preamble_iff_nonzero_offset buf7 7 _ rfl rfl⟩

/-- C8: on every successful parse, `checksum_scrambled` is `none` iff
the raw little-endian 2-byte field at offsets 30-31 past the
discovered offset is 0, and for a nonzero raw value `v` it is
`some (Crc16Checksum v)`. -/
theorem scrambled_checksum_absent_iff_zero (b : List Nat) (i : Nat)
    (f : PuzFile) (hi : get_puz_start_offset b = .ok i)
    (hp : parse_a_puz b = .ok f) :
    f.checksum_scrambled =
      (if (b.drop i).getD 30 0 + 256 * (b.drop i).getD 31 0 = 0 then none
       else some (Crc16Checksum.fromU16
         ((b.drop i).getD 30 0 + 256 * (b.drop i).getD 31 0))) := by
  obtain ⟨p, hcore⟩ := parse_a_puz_ok_core hp
  exact (parse_core_ok_inv b i f p hi hcore).2.2.2

theorem scrambled_checksum_absent_iff_zero_witness :
    ∃ f, parse_a_puz buf8 = .ok f ∧
      f.checksum_scrambled =
        (if (buf8.drop 0).getD 30 0 + 256 * (buf8.drop 0).getD 31 0 = 0
         then none
         else some (Crc16Checksum.fromU16
           ((buf8.drop 0).getD 30 0 + 256 * (buf8.drop 0).getD 31 0))) ∧
      f.checksum_scrambled = some (Crc16Checksum.fromU16 0x1234) :=
  ⟨_, rfl, scrambled_checksum_absent_iff_zero buf8 0 _ rfl rfl, rfl⟩

/-- C9: for every input buffer the scan loop of
`get_puz_start_offset` reaches a `return` (either `Ok i` or the
`NotAPuz` error) within `b.length + 1` iterations, so the
`unreachable!()` after the loop is never executed. -/
theorem scan_loop_terminates (b : List Nat) :
    (puzStartLoop b (b.length + 1) 0).isSome = true :=
  puzStartLoop_isSome b (b.length + 1) 0 (by omega) (by omega)

/-- C10: a parse succeeds only when at least 52 bytes are available
from the discovered offset; on success the header reads consume
exactly 52 bytes from that offset, and the 14-byte magic window lies
inside those 52 bytes (it matches at the discovered offset itself). -/
theorem header_consumes_exactly_52 (b : List Nat) (i : Nat) (f : PuzFile)
    (p : Nat) (hi : get_puz_start_offset b = .ok i)
    (hp : parse_core b = .ok (f, p)) :
    p = 52 ∧ i + 52 ≤ b.length ∧ magicAt b i := by
  obtain ⟨h52, hlen, -, -⟩ := parse_core_ok_inv b i f p hi hp
  exact ⟨h52, hlen, get_puz_start_offset_ok_magic hi⟩

theorem header_consumes_exactly_52_witness :
    ∃ f p, parse_core buf2 = .ok (f, p) ∧
      (p = 52 ∧ 0 + 52 ≤ buf2.length ∧ magicAt buf2 0) :=
  ⟨_, _, rfl, header_consumes_exactly_52 buf2 0 _ _ rfl rfl⟩

end Puz
